import Mathlib

/-!
Verification of the StageLinq client library core: the BeatInfo service
(frame decoding and change-detection filtering), the StageLinqDevices
connection orchestrator (discovery handling, retry loop, ignore policy),
and the Devices registry (identity normalisation and the waiting lookup).

The development is a shallow embedding of the TypeScript sources:
`src/services/BeatInfo.ts`, `src/network/StageLinqDevices.ts`, and the
Devices registry file. Numeric wire fields are modelled as `Nat` (with
IEEE-754 doubles represented by their 64-bit big-endian bit patterns at
the codec level, and as rationals at the beat-arithmetic level), byte
buffers as `List Nat`, JavaScript `Map`s as association lists, and
exceptions as `Option` (`none` = the call threw).
-/

namespace StageLinq

/-! ## Data model of the BeatInfo service (`src/services/BeatInfo.ts`) -/

/-- `playerBeatData`: per-player record. `samples` is optional in the
source (`samples?: number`) and is populated only by the second decoding
pass. The value type is a parameter: bit patterns (`Nat`) at the codec
level, rationals at the beat-arithmetic level. -/
structure PlayerBeatData (α : Type) where
  beat : α
  totalBeats : α
  BPM : α
  samples : Option α
  deriving DecidableEq

instance : Inhabited (PlayerBeatData ℚ) := ⟨⟨0, 0, 0, none⟩⟩

/-- `BeatData`: the decoded payload of one beat-info frame. -/
structure BeatData (α : Type) where
  clock : ℕ
  playerCount : ℕ
  player : List (PlayerBeatData α)
  deriving DecidableEq

/-- `ServiceMessage<T>`: envelope produced by every concrete parser. -/
structure ServiceMessage (T : Type) where
  id : ℕ
  message : T
  deriving DecidableEq

/-! ## BeatInfo.messageHandler

The handler's mutable fields `_userBeatOptions.everyNBeats` and
`_currentBeatData` form the state.  The user callback is modelled by
returning the list of payloads forwarded to it (in call order); a thrown
exception is modelled by `none`. -/

/-- The handler state: the configured beat threshold and the cached
"current" beat data (`null` initially). -/
structure BeatInfoState where
  everyNBeats : ℚ
  currentBeatData : Option (BeatData ℚ)
  deriving DecidableEq

/-- The inner `resCheck` closure of `messageHandler`: the beat bucket
`⌊beat / res⌋` moved by at least one in either direction. -/
def resCheck (res prevBeat currentBeat : ℚ) : Bool :=
  decide (1 ≤ ⌊currentBeat / res⌋ - ⌊prevBeat / res⌋)
    || decide (1 ≤ ⌊prevBeat / res⌋ - ⌊currentBeat / res⌋)

/-- The `for (let i = 0; i < playerCount; i++)` loop of `messageHandler`,
accumulating `hasUpdated`.  Indexing a player list out of range models the
JavaScript `undefined.beat` dereference: the whole loop throws (`none`). -/
def hasUpdatedCheck (res : ℚ) (cached incoming : List (PlayerBeatData ℚ)) :
    ℕ → Option Bool
  | 0 => some false
  | n + 1 => do
    let rest ← hasUpdatedCheck res cached incoming n
    let c ← cached[n]?
    let m ← incoming[n]?
    pure (rest || resCheck res c.beat m.beat)

/-- `BeatInfo.messageHandler`.  On the first message the cache is set and
the callback invoked *before* the loop runs, so the loop then compares the
new message against itself (the source has no early return there).  The
result is the new handler state together with the payloads forwarded to
`_userBeatCallback`; `none` models a thrown exception. -/
def messageHandler (st : BeatInfoState) (p_data : ServiceMessage (BeatData ℚ)) :
    Option (BeatInfoState × List (BeatData ℚ)) :=
  match st.currentBeatData with
  | none => do
    let hasUpdated ← hasUpdatedCheck st.everyNBeats p_data.message.player
      p_data.message.player p_data.message.playerCount
    if hasUpdated then
      pure ({ st with currentBeatData := some p_data.message },
        [p_data.message, p_data.message])
    else
      pure ({ st with currentBeatData := some p_data.message }, [p_data.message])
  | some cur => do
    let hasUpdated ← hasUpdatedCheck st.everyNBeats cur.player
      p_data.message.player p_data.message.playerCount
    if hasUpdated then
      pure ({ st with currentBeatData := some p_data.message }, [p_data.message])
    else
      pure (st, [])

/-! ### Characterisation of the boundary-crossing loop -/

theorem resCheck_iff (res a b : ℚ) :
    resCheck res a b = true ↔ ⌊b / res⌋ ≠ ⌊a / res⌋ := by
  simp only [resCheck, Bool.or_eq_true, decide_eq_true_eq]
  omega

theorem hasUpdatedCheck_spec (res : ℚ) (cached incoming : List (PlayerBeatData ℚ))
    (n : ℕ) (hc : n ≤ cached.length) (hm : n ≤ incoming.length) :
    hasUpdatedCheck res cached incoming n =
      some (decide (∃ i < n,
        ⌊(incoming.getD i default).beat / res⌋ ≠ ⌊(cached.getD i default).beat / res⌋)) := by
  induction n with
  | zero => simp [hasUpdatedCheck]
  | succ k ih =>
    have hck : k < cached.length := Nat.lt_of_lt_of_le (Nat.lt_succ_self k) hc
    have hmk : k < incoming.length := Nat.lt_of_lt_of_le (Nat.lt_succ_self k) hm
    have hcg : cached[k]? = some cached[k] := List.getElem?_eq_getElem hck
    have hmg : incoming[k]? = some incoming[k] := List.getElem?_eq_getElem hmk
    have hcd : cached.getD k default = cached[k] := by
      rw [List.getD_eq_getElem?_getD, hcg]; rfl
    have hmd : incoming.getD k default = incoming[k] := by
      rw [List.getD_eq_getElem?_getD, hmg]; rfl
    rw [hasUpdatedCheck, ih (Nat.le_of_succ_le hc) (Nat.le_of_succ_le hm)]
    simp only [Option.bind_eq_bind, Option.some_bind, hcg, hmg]
    have hstep : (∃ i < k + 1,
        ⌊(incoming.getD i default).beat / res⌋ ≠ ⌊(cached.getD i default).beat / res⌋) ↔
        (∃ i < k,
          ⌊(incoming.getD i default).beat / res⌋ ≠ ⌊(cached.getD i default).beat / res⌋) ∨
        ⌊incoming[k].beat / res⌋ ≠ ⌊cached[k].beat / res⌋ := by
      constructor
      · rintro ⟨i, hi, hne⟩
        rcases Nat.lt_succ_iff_lt_or_eq.mp hi with h | h
        · exact Or.inl ⟨i, h, hne⟩
        · subst h; rw [hcd, hmd] at hne; exact Or.inr hne
      · rintro (⟨i, hi, hne⟩ | hne)
        · exact ⟨i, Nat.lt_succ_of_lt hi, hne⟩
        · exact ⟨k, Nat.lt_succ_self k, by rw [hcd, hmd]; exact hne⟩
    have hres : resCheck res cached[k].beat incoming[k].beat =
        decide (⌊incoming[k].beat / res⌋ ≠ ⌊cached[k].beat / res⌋) := by
      rw [Bool.eq_iff_iff, decide_eq_true_eq]
      exact resCheck_iff res cached[k].beat incoming[k].beat
    rw [hres]
    refine congrArg some ?_
    rw [Bool.eq_iff_iff, Bool.or_eq_true, decide_eq_true_eq, decide_eq_true_eq,
      decide_eq_true_eq]
    exact hstep.symm

theorem hasUpdatedCheck_none_of_short (res : ℚ)
    (cached incoming : List (PlayerBeatData ℚ)) (n : ℕ)
    (h : cached.length < n) :
    hasUpdatedCheck res cached incoming n = none := by
  induction n with
  | zero => exact absurd h (Nat.not_lt_zero _)
  | succ k ih =>
    rcases Nat.lt_succ_iff_lt_or_eq.mp h with hlt | heq
    · rw [hasUpdatedCheck, ih hlt]; rfl
    · have hnone : cached[k]? = none := List.getElem?_eq_none heq.le
      rw [hasUpdatedCheck]
      cases hasUpdatedCheck res cached incoming k with
      | none => rfl
      | some b => simp only [Option.bind_eq_bind, Option.some_bind, hnone,
          Option.none_bind]

/-- C1: `BeatInfo.messageHandler` implements change-detection filtering.
The first message ever received is forwarded to the user callback exactly
once and cached; a subsequent message is forwarded (and replaces the
cache) if and only if some player index `i < playerCount` satisfies
`⌊newBeat_i / N⌋ ≠ ⌊cachedBeat_i / N⌋` with `N = everyNBeats`, and is
dropped (cache unchanged, callback not invoked) otherwise.  Stated for a
positive threshold (the spec leaves `N ≤ 0` undefined) and for messages
whose player list covers `playerCount` (see the non-totality result on
shorter lists). -/
theorem messageHandler_change_detection
    (st : BeatInfoState) (p_data : ServiceMessage (BeatData ℚ))
    (_hN : 0 < st.everyNBeats)
    (hm : p_data.message.playerCount ≤ p_data.message.player.length) :
    (st.currentBeatData = none →
      messageHandler st p_data =
        some ({ st with currentBeatData := some p_data.message }, [p_data.message])) ∧
    (∀ cur, st.currentBeatData = some cur →
      p_data.message.playerCount ≤ cur.player.length →
      ((∃ i < p_data.message.playerCount,
          ⌊(p_data.message.player.getD i default).beat / st.everyNBeats⌋ ≠
            ⌊(cur.player.getD i default).beat / st.everyNBeats⌋) →
        messageHandler st p_data =
          some ({ st with currentBeatData := some p_data.message }, [p_data.message])) ∧
      (¬ (∃ i < p_data.message.playerCount,
          ⌊(p_data.message.player.getD i default).beat / st.everyNBeats⌋ ≠
            ⌊(cur.player.getD i default).beat / st.everyNBeats⌋) →
        messageHandler st p_data = some (st, []))) := by
  constructor
  · intro hnone
    rw [messageHandler]
    rw [hnone]
    rw [hasUpdatedCheck_spec st.everyNBeats p_data.message.player p_data.message.player
      p_data.message.playerCount hm hm]
    have hfalse : ¬ (∃ i < p_data.message.playerCount,
        ⌊(p_data.message.player.getD i default).beat / st.everyNBeats⌋ ≠
          ⌊(p_data.message.player.getD i default).beat / st.everyNBeats⌋) := by
      rintro ⟨i, _, hne⟩; exact hne rfl
    simp [hfalse]
  · intro cur hcur hlen
    constructor
    · intro hex
      rw [messageHandler, hcur]
      dsimp only
      rw [hasUpdatedCheck_spec st.everyNBeats cur.player p_data.message.player
        p_data.message.playerCount hlen hm]
      simp only [List.getD_eq_getElem?_getD] at hex
      simp [hex]
    · intro hnex
      rw [messageHandler, hcur]
      dsimp only
      rw [hasUpdatedCheck_spec st.everyNBeats cur.player p_data.message.player
        p_data.message.playerCount hlen hm]
      simp only [List.getD_eq_getElem?_getD] at hnex
      simp [hnex]

/-- C9: `BeatInfo.messageHandler` is not total at its public interface.
Whenever a cached message exists and an incoming message declares a
`playerCount` exceeding the cached player list's length, the per-player
boundary loop dereferences a missing cached entry and the handler throws
(modelled as `none`) instead of forwarding or dropping the message; so
totality requires `playerCount` never to exceed the cached list length. -/
theorem messageHandler_not_total
    (st : BeatInfoState) (cur : BeatData ℚ) (p_data : ServiceMessage (BeatData ℚ))
    (hcur : st.currentBeatData = some cur)
    (hshort : cur.player.length < p_data.message.playerCount) :
    messageHandler st p_data = none := by
  rw [messageHandler, hcur]
  dsimp only
  rw [hasUpdatedCheck_none_of_short st.everyNBeats cur.player p_data.message.player
    p_data.message.playerCount hshort]
  rfl

/-- Witness for C1: threshold 4, cached beat 7.9, incoming beat 8.1 for
the single player: the bucket boundary at 8 is crossed, so the message is
forwarded and becomes the new cache. -/
theorem messageHandler_change_detection_witness :
    messageHandler ⟨4, some ⟨0, 1, [⟨79/10, 0, 0, none⟩]⟩⟩
        ⟨0, ⟨1, 1, [⟨81/10, 0, 0, none⟩]⟩⟩ =
      some (⟨4, some ⟨1, 1, [⟨81/10, 0, 0, none⟩]⟩⟩,
        [⟨1, 1, [⟨81/10, 0, 0, none⟩]⟩]) := by
  have h := (messageHandler_change_detection
    ⟨4, some ⟨0, 1, [⟨79/10, 0, 0, none⟩]⟩⟩
    ⟨0, ⟨1, 1, [⟨81/10, 0, 0, none⟩]⟩⟩
    (by norm_num) (by decide)).2
    ⟨0, 1, [⟨79/10, 0, 0, none⟩]⟩ rfl (by decide)
  exact h.1 ⟨0, Nat.zero_lt_one, by show ⌊(81/10 : ℚ)/4⌋ ≠ ⌊(79/10 : ℚ)/4⌋; norm_num⟩

/-- Witness for C9: a cached message with one player entry followed by a
message declaring two players makes the handler throw. -/
theorem messageHandler_not_total_witness :
    messageHandler ⟨4, some ⟨0, 1, [⟨1, 0, 0, none⟩]⟩⟩
        ⟨0, ⟨0, 2, [⟨1, 0, 0, none⟩, ⟨2, 0, 0, none⟩]⟩⟩ = none :=
  messageHandler_not_total _ ⟨0, 1, [⟨1, 0, 0, none⟩]⟩ _ rfl (by decide)

/-! ## StageLinqDevices orchestrator (`src/network/StageLinqDevices.ts`) -/

/-- `ConnectionStatus` from the orchestrator source. -/
inductive ConnectionStatus
  | CONNECTING
  | CONNECTED
  | FAILED
  deriving DecidableEq

structure Software where
  name : String
  version : String
  deriving DecidableEq

/-- `ConnectionInfo`: one discovered remote endpoint
(`{address, port, token, source, software}`). -/
structure ConnectionInfo where
  address : String
  port : ℕ
  source : String
  software : Software
  token : List ℕ
  deriving DecidableEq

structure ActingAs where
  source : String
  deriving DecidableEq

/-- The orchestrator options recognised by `StageLinqDevices`. -/
structure StageLinqOptions where
  maxRetries : ℕ
  downloadDbSources : Bool
  actingAs : ActingAs
  deriving DecidableEq

/-- Modelled from the spec: the `FileTransfer` service class is not part
of the excerpted sources; `downloadFile` is specified only as delegating
to it, so it is modelled as the function from paths to file bytes. -/
structure FileTransfer where
  getFile : String → List ℕ

/-- The orchestrator-local `StageLinqDevice` record (the `networkDevice`
field carries no state that the verified operations read, so only the
file-transfer service is kept). -/
structure StageLinqDevice where
  fileTransferService : FileTransfer

/-- A JavaScript `Map` as an insertion-ordered association list. -/
def lookupKey {β : Type} (k : String) : List (String × β) → Option β
  | [] => none
  | (k', v) :: rest => if k' = k then some v else lookupKey k rest

/-- `Map.set`: replace the value at an existing key in place, otherwise
append a fresh entry. -/
def setKey {β : Type} (k : String) (v : β) : List (String × β) → List (String × β)
  | [] => [(k, v)]
  | (k', v') :: rest => if k' = k then (k, v) :: rest else (k', v') :: setKey k v rest

/-- The mutable fields of a `StageLinqDevices` instance: the
per-IP-address device table and the per-identity discovery status map. -/
structure OrchState where
  devices : List (String × StageLinqDevice)
  discoveryStatus : List (String × ConnectionStatus)

/-- `StageLinqDevices.deviceId`: the composite identity string
`"address:port:[source/software.name]"`. -/
def deviceId (device : ConnectionInfo) : String :=
  device.address ++ ":" ++ toString device.port ++ ":[" ++ device.source ++ "/"
    ++ device.software.name ++ "]"

def isConnecting (st : OrchState) (device : ConnectionInfo) : Bool :=
  decide (lookupKey (deviceId device) st.discoveryStatus = some ConnectionStatus.CONNECTING)

def isConnected (st : OrchState) (device : ConnectionInfo) : Bool :=
  decide (lookupKey (deviceId device) st.discoveryStatus = some ConnectionStatus.CONNECTED)

def isFailed (st : OrchState) (device : ConnectionInfo) : Bool :=
  decide (lookupKey (deviceId device) st.discoveryStatus = some ConnectionStatus.FAILED)

/-- ASCII lower-casing of one character, as JavaScript's case-insensitive
regex flag folds the ASCII letters of the pattern. -/
def toLowerChar (c : Char) : Char :=
  if c.val ≥ 65 && c.val ≤ 90 then Char.ofNat (c.val.toNat + 32) else c

/-- `/^pat/i.test(s)`: case-insensitive prefix test for an ASCII
lower-case pattern. -/
def ciHasPrefix (s pat : List Char) : Bool :=
  match s, pat with
  | _, [] => true
  | [], _ :: _ => false
  | c :: cs, p :: ps => decide (toLowerChar c = p) && ciHasPrefix cs ps

/-- `StageLinqDevices.isIgnored`: the fixed ignore policy. -/
def isIgnored (options : StageLinqOptions) (device : ConnectionInfo) : Bool :=
  decide (device.source = options.actingAs.source)
    || decide (device.software.name = "OfflineAnalyzer")
    || ciHasPrefix device.software.name.data "soundswitch".data
    || ciHasPrefix device.software.name.data "resolume".data
    || decide (device.software.name = "JM08")
    || decide (device.software.name = "SSS0")

/-- The `while (attempt < maxRetries)` retry loop of `handleDevice`,
parameterised by the per-attempt outcome of `connectToPlayer` (`true` =
the attempt succeeds).  Returns the number of connect calls made and
whether one succeeded. -/
def retryLoop (connectOk : ℕ → Bool) (maxRetries attempt : ℕ) : ℕ × Bool :=
  if attempt < maxRetries then
    if connectOk attempt then (1, true)
    else
      let r := retryLoop connectOk maxRetries (attempt + 1)
      (r.1 + 1, r.2)
  else (0, false)
termination_by maxRetries - attempt
decreasing_by omega

/-- The observable outcome of one `handleDevice` call: an early return
(already handled or ignored), success (`ready` event) after the given
number of connect calls, or a raised error after exhausting the retries. -/
inductive HandleResult
  | skipped
  | ready (attempts : ℕ)
  | failed (attempts : ℕ)
  deriving DecidableEq

/-- `StageLinqDevices.handleDevice`.  `connectOk` gives the outcome of
each `connectToPlayer` call (indexed by the `attempt` counter) and
`entry` the `{networkDevice, fileTransferService}` record a successful
connect stores under the device's address. -/
def handleDevice (options : StageLinqOptions) (connectOk : ℕ → Bool)
    (entry : StageLinqDevice) (st : OrchState) (connectionInfo : ConnectionInfo) :
    OrchState × HandleResult :=
  if isConnected st connectionInfo || isConnecting st connectionInfo
      || isFailed st connectionInfo || isIgnored options connectionInfo then
    (st, HandleResult.skipped)
  else
    let key := deviceId connectionInfo
    let st1 : OrchState :=
      { st with discoveryStatus := setKey key ConnectionStatus.CONNECTING st.discoveryStatus }
    let r := retryLoop connectOk options.maxRetries 1
    if r.2 then
      let stC : OrchState :=
        { devices := setKey connectionInfo.address entry st1.devices,
          discoveryStatus := setKey key ConnectionStatus.CONNECTED st1.discoveryStatus }
      (stC, HandleResult.ready r.1)
    else
      let stF : OrchState :=
        { st1 with discoveryStatus := setKey key ConnectionStatus.FAILED st1.discoveryStatus }
      (stF, HandleResult.failed r.1)

/-- `StageLinqDevices.disconnectAll`: disconnects every tracked device's
socket (returned as the list of affected addresses) and touches neither
the device table nor the discovery status map. -/
def disconnectAll (st : OrchState) : OrchState × List String :=
  (st, st.devices.map Prod.fst)

/-- `StageLinqDevices.downloadFile`: look the device up by address and
delegate to its file-transfer service; `none` models the thrown
`TypeError` when the address is untracked (`device` is `undefined`). -/
def downloadFile (st : OrchState) (ipAddress path : String) : Option (List ℕ) :=
  match lookupKey ipAddress st.devices with
  | none => none
  | some device => some (device.fileTransferService.getFile path)

theorem lookupKey_setKey {β : Type} (k k' : String) (v : β) (m : List (String × β)) :
    lookupKey k' (setKey k v m) = if k' = k then some v else lookupKey k' m := by
  induction m with
  | nil =>
    simp only [setKey, lookupKey]
    by_cases h : k' = k
    · subst h; simp
    · rw [if_neg (fun e : k = k' => h e.symm), if_neg h]
  | cons hd tl ih =>
    obtain ⟨k₀, v₀⟩ := hd
    simp only [setKey]
    by_cases h0 : k₀ = k
    · subst h0
      rw [if_pos rfl]
      simp only [lookupKey]
      by_cases h : k₀ = k'
      · subst h; simp
      · have h' : ¬ k' = k₀ := fun e => h e.symm
        simp [h, h']
    · rw [if_neg h0]
      simp only [lookupKey, ih]
      by_cases h : k₀ = k'
      · subst h; simp [h0]
      · simp [h]

/-! ### Orchestrator lemmas -/

/-- A sample discovery announcement used by the concrete instances. -/
def demoInfo : ConnectionInfo :=
  ⟨"192.168.1.20", 50010, "player", ⟨"SC6000", "2.0.1"⟩, []⟩

/-- A sample stored device record. -/
def demoEntry : StageLinqDevice := ⟨⟨fun _ => []⟩⟩

theorem handleDevice_skip (options : StageLinqOptions) (connectOk : ℕ → Bool)
    (entry : StageLinqDevice) (st : OrchState) (ci : ConnectionInfo)
    (h : (isConnected st ci || isConnecting st ci || isFailed st ci
      || isIgnored options ci) = true) :
    handleDevice options connectOk entry st ci = (st, HandleResult.skipped) := by
  rw [handleDevice, if_pos h]

theorem retryLoop_const_false (m a : ℕ) :
    retryLoop (fun _ => false) m a = (m - a, false) := by
  generalize hfuel : m - a = fuel
  induction fuel generalizing a with
  | zero => rw [retryLoop, if_neg (by omega)]
  | succ f ihf =>
    have hlt : a < m := by omega
    rw [retryLoop, if_pos hlt, if_neg (by simp)]
    rw [ihf (a + 1) (by omega)]

theorem ciHasPrefix_iff (pat s : List Char) :
    ciHasPrefix s pat = true ↔ ∃ t, s.map toLowerChar = pat ++ t := by
  induction pat generalizing s with
  | nil => simp [ciHasPrefix]
  | cons p ps ih =>
    cases s with
    | nil => simp [ciHasPrefix]
    | cons c cs =>
      simp only [ciHasPrefix, Bool.and_eq_true, decide_eq_true_eq, ih, List.map_cons,
        List.cons_append, List.cons.injEq]
      constructor
      · rintro ⟨hc, t, ht⟩; exact ⟨t, hc, ht⟩
      · rintro ⟨t, hc, ht⟩; exact ⟨hc, t, ht⟩

/-- C3: retry exhaustion.  With `maxRetries = 3` and a connect routine
that always fails, `handleDevice` makes exactly **2** connect attempts
(the loop runs its body for `attempt = 1, 2` only, i.e. `maxRetries - 1`
bodies), then marks the identity FAILED and raises the error — not the 3
total attempts the surrounding documentation announces.  The first
conjunct evaluates the concrete run; the second is the general count of
connect calls made by the loop when every attempt fails. -/
theorem handleDevice_retry_exhaustion :
    (handleDevice ⟨3, false, ⟨"testing"⟩⟩ (fun _ => false) demoEntry ⟨[], []⟩ demoInfo =
      (⟨[], [(deviceId demoInfo, ConnectionStatus.FAILED)]⟩, HandleResult.failed 2)) ∧
    (∀ m : ℕ, retryLoop (fun _ => false) m 1 = (m - 1, false)) := by
  constructor
  · rw [handleDevice, if_neg (by decide)]
    simp [retryLoop_const_false, setKey]
  · intro m; exact retryLoop_const_false m 1

/-- C4: duplicate / unwanted announcements are no-ops.  If the identity
string of the announcement is already mapped (to CONNECTING, CONNECTED or
FAILED) in the discovery-status map, or the announcement matches the
ignore predicate, `handleDevice` returns with no connect attempt and
leaves both maps untouched; and the identity string depends only on the
(address, port, source, software name) tuple, so a second announcement
with that same tuple while the first is CONNECTING hits the same map
entry. -/
theorem handleDevice_noop_when_seen_or_ignored
    (options : StageLinqOptions) (connectOk : ℕ → Bool) (entry : StageLinqDevice)
    (st : OrchState) (ci : ConnectionInfo)
    (h : (∃ s, lookupKey (deviceId ci) st.discoveryStatus = some s)
      ∨ isIgnored options ci = true) :
    handleDevice options connectOk entry st ci = (st, HandleResult.skipped) ∧
    (∀ ci' : ConnectionInfo, ci'.address = ci.address → ci'.port = ci.port →
      ci'.source = ci.source → ci'.software.name = ci.software.name →
      deviceId ci' = deviceId ci) := by
  constructor
  · apply handleDevice_skip
    rcases h with ⟨s, hs⟩ | hig
    · cases s
      · simp [isConnecting, hs]
      · simp [isConnected, hs]
      · simp [isFailed, hs]
    · simp [hig]
  · intro ci' h1 h2 h3 h4
    rw [deviceId, deviceId, h1, h2, h3, h4]

/-- Witness for C4: a second announcement for an identity that is
currently CONNECTING is a no-op. -/
theorem handleDevice_noop_when_seen_or_ignored_witness :
    handleDevice ⟨3, false, ⟨"testing"⟩⟩ (fun _ => true) demoEntry
        ⟨[], [(deviceId demoInfo, ConnectionStatus.CONNECTING)]⟩ demoInfo =
      (⟨[], [(deviceId demoInfo, ConnectionStatus.CONNECTING)]⟩, HandleResult.skipped) :=
  (handleDevice_noop_when_seen_or_ignored _ _ _ _ _
    (Or.inl ⟨ConnectionStatus.CONNECTING, by simp [lookupKey]⟩)).1

/-- Counterexample to C5 as stated: with the identity already FAILED, a
later discovery announcement does **not** restart the sequence — the
FAILED entry survives, no CONNECTING overwrite happens and the connect
routine is never called, even though every attempt would succeed. -/
theorem handleDevice_failed_no_restart :
    handleDevice ⟨3, false, ⟨"testing"⟩⟩ (fun _ => true) demoEntry
        ⟨[], [(deviceId demoInfo, ConnectionStatus.FAILED)]⟩ demoInfo =
      (⟨[], [(deviceId demoInfo, ConnectionStatus.FAILED)]⟩, HandleResult.skipped) :=
  handleDevice_skip _ _ _ _ _ (by simp [isFailed, lookupKey])

/-- C5 amended: a FAILED identity is sticky.  Once the discovery-status
map holds FAILED for an identity, every later `handleDevice` call for it
returns immediately: the entry is not overwritten to CONNECTING, no new
connect attempt begins, and the map still reads FAILED afterwards. -/
theorem handleDevice_failed_sticky
    (options : StageLinqOptions) (connectOk : ℕ → Bool) (entry : StageLinqDevice)
    (st : OrchState) (ci : ConnectionInfo)
    (h : lookupKey (deviceId ci) st.discoveryStatus = some ConnectionStatus.FAILED) :
    handleDevice options connectOk entry st ci = (st, HandleResult.skipped) ∧
    lookupKey (deviceId ci)
      (handleDevice options connectOk entry st ci).1.discoveryStatus =
      some ConnectionStatus.FAILED := by
  have hskip : handleDevice options connectOk entry st ci = (st, HandleResult.skipped) :=
    handleDevice_skip _ _ _ _ _ (by simp [isFailed, h])
  exact ⟨hskip, by rw [hskip]; exact h⟩

/-- Witness for the amended C5. -/
theorem handleDevice_failed_sticky_witness :
    handleDevice ⟨5, true, ⟨"self"⟩⟩ (fun _ => true) demoEntry
        ⟨[("10.0.0.9", demoEntry)], [(deviceId demoInfo, ConnectionStatus.FAILED)]⟩
        demoInfo =
      (⟨[("10.0.0.9", demoEntry)], [(deviceId demoInfo, ConnectionStatus.FAILED)]⟩,
        HandleResult.skipped) :=
  (handleDevice_failed_sticky _ _ _ _ _ (by simp [lookupKey])).1

/-- C6: the ignore policy.  `isIgnored` holds exactly when the source is
this process's own acting-as source, or the software name is exactly
"OfflineAnalyzer", "JM08" or "SSS0", or has the case-insensitive prefix
"SoundSwitch" or "Resolume"; and any ignored announcement makes
`handleDevice` return without a connect attempt regardless of the
discovery-status map. -/
theorem isIgnored_policy (options : StageLinqOptions) (ci : ConnectionInfo) :
    (isIgnored options ci = true ↔
      (ci.source = options.actingAs.source ∨
        ci.software.name = "OfflineAnalyzer" ∨
        (∃ t, ci.software.name.data.map toLowerChar = "soundswitch".data ++ t) ∨
        (∃ t, ci.software.name.data.map toLowerChar = "resolume".data ++ t) ∨
        ci.software.name = "JM08" ∨
        ci.software.name = "SSS0")) ∧
    (isIgnored options ci = true → ∀ (connectOk : ℕ → Bool) (entry : StageLinqDevice)
      (st : OrchState), handleDevice options connectOk entry st ci = (st, HandleResult.skipped)) := by
  constructor
  · simp only [isIgnored, Bool.or_eq_true, decide_eq_true_eq,
      ciHasPrefix_iff, or_assoc]
  · intro hig connectOk entry st
    exact handleDevice_skip _ _ _ _ _ (by simp [hig])

/-- Witness for C6: "SoundSwitchXYZ" is ignored even while the
discovery-status map has no entry for it. -/
theorem isIgnored_policy_witness :
    handleDevice ⟨3, false, ⟨"testing"⟩⟩ (fun _ => true) demoEntry ⟨[], []⟩
        ⟨"192.168.1.30", 50020, "mixer", ⟨"SoundSwitchXYZ", "1"⟩, []⟩ =
      (⟨[], []⟩, HandleResult.skipped) :=
  (isIgnored_policy ⟨3, false, ⟨"testing"⟩⟩
    ⟨"192.168.1.30", 50020, "mixer", ⟨"SoundSwitchXYZ", "1"⟩, []⟩).2
    (by decide) (fun _ => true) demoEntry ⟨[], []⟩

/-- C8: `downloadFile` delegates to the tracked device's file-transfer
service when the address is tracked and is a hard error (a thrown lookup
fault, not an empty result) when it is not. -/
theorem downloadFile_spec (st : OrchState) (addr path : String) :
    (∀ device, lookupKey addr st.devices = some device →
      downloadFile st addr path = some (device.fileTransferService.getFile path)) ∧
    (lookupKey addr st.devices = none → downloadFile st addr path = none) := by
  constructor
  · intro device h; rw [downloadFile, h]
  · intro h; rw [downloadFile, h]

/-- Witness for C8: a tracked address yields the delegated file, and the
same lookup on an empty device table is the error case. -/
theorem downloadFile_spec_witness :
    downloadFile ⟨[("10.0.0.5", ⟨⟨fun _ => [1, 2, 3]⟩⟩)], []⟩ "10.0.0.5" "/a.db" =
        some [1, 2, 3] ∧
    downloadFile ⟨[], []⟩ "10.0.0.5" "/a.db" = none :=
  ⟨(downloadFile_spec ⟨[("10.0.0.5", ⟨⟨fun _ => [1, 2, 3]⟩⟩)], []⟩ "10.0.0.5" "/a.db").1
      ⟨⟨fun _ => [1, 2, 3]⟩⟩ (by simp [lookupKey]),
    (downloadFile_spec ⟨[], []⟩ "10.0.0.5" "/a.db").2 rfl⟩

/-- C10: no operation removes discovery-status entries.  `disconnectAll`
returns the state unchanged (it only closes sockets), `handleDevice`
only inserts or overwrites entries (an existing key keeps some status),
and a previously CONNECTED identity still reads CONNECTED after
`disconnectAll`, so any later announcement for it stays a no-op — the
device is never reconnected. -/
theorem discoveryStatus_never_removed :
    (∀ st : OrchState, (disconnectAll st).1 = st) ∧
    (∀ (options : StageLinqOptions) (connectOk : ℕ → Bool) (entry : StageLinqDevice)
      (st : OrchState) (ci : ConnectionInfo) (key : String) (s : ConnectionStatus),
      lookupKey key st.discoveryStatus = some s →
      ∃ s', lookupKey key
        (handleDevice options connectOk entry st ci).1.discoveryStatus = some s') ∧
    (∀ (options : StageLinqOptions) (connectOk : ℕ → Bool) (entry : StageLinqDevice)
      (st : OrchState) (ci : ConnectionInfo),
      lookupKey (deviceId ci) st.discoveryStatus = some ConnectionStatus.CONNECTED →
      handleDevice options connectOk entry (disconnectAll st).1 ci =
        ((disconnectAll st).1, HandleResult.skipped)) := by
  refine ⟨fun st => rfl, ?_, ?_⟩
  · intro options connectOk entry st ci key s hs
    rw [handleDevice]
    by_cases hg : (isConnected st ci || isConnecting st ci || isFailed st ci
        || isIgnored options ci) = true
    · rw [if_pos hg]; exact ⟨s, hs⟩
    · rw [if_neg hg]
      dsimp only
      by_cases hr : (retryLoop connectOk options.maxRetries 1).2 = true
      · rw [if_pos hr]
        dsimp only
        rw [lookupKey_setKey, lookupKey_setKey]
        by_cases hk : key = deviceId ci
        · exact ⟨ConnectionStatus.CONNECTED, by rw [if_pos hk]⟩
        · exact ⟨s, by rw [if_neg hk, if_neg hk]; exact hs⟩
      · rw [if_neg hr]
        dsimp only
        rw [lookupKey_setKey, lookupKey_setKey]
        by_cases hk : key = deviceId ci
        · exact ⟨ConnectionStatus.FAILED, by rw [if_pos hk]⟩
        · exact ⟨s, by rw [if_neg hk, if_neg hk]; exact hs⟩
  · intro options connectOk entry st ci hconn
    exact handleDevice_skip _ _ _ _ _ (by simp [disconnectAll, isConnected, hconn])

/-- Witness for C10: after `disconnectAll`, the CONNECTED identity's
announcement is still a no-op. -/
theorem discoveryStatus_never_removed_witness :
    handleDevice ⟨3, false, ⟨"testing"⟩⟩ (fun _ => true) demoEntry
        (disconnectAll ⟨[(demoInfo.address, demoEntry)],
          [(deviceId demoInfo, ConnectionStatus.CONNECTED)]⟩).1 demoInfo =
      ((disconnectAll ⟨[(demoInfo.address, demoEntry)],
          [(deviceId demoInfo, ConnectionStatus.CONNECTED)]⟩).1,
        HandleResult.skipped) :=
  discoveryStatus_never_removed.2.2 ⟨3, false, ⟨"testing"⟩⟩ (fun _ => true) demoEntry
    ⟨[(demoInfo.address, demoEntry)], [(deviceId demoInfo, ConnectionStatus.CONNECTED)]⟩
    demoInfo (by simp [lookupKey])

/-! ## Binary read cursor and `BeatInfo.parseData` -/

/-- Modelled from the spec: the sequential read cursor (`ReadContext` is
not among the excerpted sources): an immutable byte buffer with an
advancing offset; fixed-width reads fail fast (`none`) when fewer bytes
remain, never returning garbage. -/
structure ReadContext where
  buf : List ℕ
  pos : ℕ
  deriving DecidableEq

def sizeLeft (c : ReadContext) : ℕ := c.buf.length - c.pos

def isEOF (c : ReadContext) : Bool := decide (sizeLeft c = 0)

/-- Read `n` raw bytes, advancing the offset. -/
def readBytes (c : ReadContext) (n : ℕ) : Option (List ℕ × ReadContext) :=
  if n ≤ sizeLeft c then some ((c.buf.drop c.pos).take n, ⟨c.buf, c.pos + n⟩)
  else none

/-- Big-endian value of a byte list. -/
def beVal (bs : List ℕ) : ℕ := bs.foldl (fun acc b => acc * 256 + b) 0

def readUInt32 (c : ReadContext) : Option (ℕ × ReadContext) :=
  (readBytes c 4).map fun p => (beVal p.1, p.2)

def readUInt64 (c : ReadContext) : Option (ℕ × ReadContext) :=
  (readBytes c 8).map fun p => (beVal p.1, p.2)

/-- `readFloat64`, with each IEEE-754 double represented by the 64-bit
big-endian bit pattern of the 8 bytes read (bit patterns and doubles are
in bijection at the codec level, so decode exactness is preserved). -/
def readFloat64 (c : ReadContext) : Option (ℕ × ReadContext) :=
  (readBytes c 8).map fun p => (beVal p.1, p.2)

/-- The first `for (let i=0; i<playerCount; i++)` pass of `parseData`:
three doubles (beat, totalBeats, BPM) per player, in order. -/
def readPlayerTriples (c : ReadContext) :
    ℕ → Option (List (PlayerBeatData ℕ) × ReadContext)
  | 0 => some ([], c)
  | n + 1 => do
    let (beat, c1) ← readFloat64 c
    let (totalBeats, c2) ← readFloat64 c1
    let (bpm, c3) ← readFloat64 c2
    let (rest, c4) ← readPlayerTriples c3 n
    some (⟨beat, totalBeats, bpm, none⟩ :: rest, c4)

/-- The second pass of `parseData`: one `samples` double per player,
assigned in order to the entries built by the first pass. -/
def readSamples (c : ReadContext) :
    List (PlayerBeatData ℕ) → Option (List (PlayerBeatData ℕ) × ReadContext)
  | [] => some ([], c)
  | p :: rest => do
    let (s, c1) ← readFloat64 c
    let (rest2, c2) ← readSamples c1 rest
    some ({ p with samples := some s } :: rest2, c2)

/-- `BeatInfo.parseData`.  The leading `assert(p_ctx.sizeLeft() > 72)`
and the trailing `assert(p_ctx.isEOF())` are modelled as failure
(`none`), as is any fixed-width read finding too few bytes. -/
def parseData (p_ctx : ReadContext) : Option (ServiceMessage (BeatData ℕ)) :=
  if sizeLeft p_ctx ≤ 72 then none
  else do
    let (id, c1) ← readUInt32 p_ctx
    let (clock, c2) ← readUInt64 c1
    let (playerCount, c3) ← readUInt32 c2
    let (player1, c4) ← readPlayerTriples c3 playerCount
    let (player, c5) ← readSamples c4 player1
    if isEOF c5 then some ⟨id, ⟨clock, playerCount, player⟩⟩ else none

/-! ### The beat-info wire layout and its encoder -/

/-- The per-player values of a synthetically constructed frame. -/
structure PlayerWire where
  beat : ℕ
  totalBeats : ℕ
  BPM : ℕ
  samples : ℕ
  deriving DecidableEq

/-- Big-endian fixed-width byte encoding of a value. -/
def beBytes : ℕ → ℕ → List ℕ
  | 0, _ => []
  | w + 1, n => beBytes w (n / 256) ++ [n % 256]

/-- First-pass region of the frame: (beat, totalBeats, BPM) triples. -/
def encodeTriples : List PlayerWire → List ℕ
  | [] => []
  | p :: ps => beBytes 8 p.beat ++ beBytes 8 p.totalBeats ++ beBytes 8 p.BPM
      ++ encodeTriples ps

/-- Second-pass region of the frame: one samples double per player. -/
def encodeSamples : List PlayerWire → List ℕ
  | [] => []
  | p :: ps => beBytes 8 p.samples ++ encodeSamples ps

/-- A beat-info frame: `uint32 id | uint64 clock | uint32 playerCount |
playerCount × (f64 beat, f64 totalBeats, f64 BPM) | playerCount × f64
samples`, all big-endian. -/
def encodeBeatFrame (id clock : ℕ) (ps : List PlayerWire) : List ℕ :=
  beBytes 4 id ++ beBytes 8 clock ++ beBytes 4 ps.length
    ++ encodeTriples ps ++ encodeSamples ps

theorem beBytes_length (w n : ℕ) : (beBytes w n).length = w := by
  induction w generalizing n with
  | zero => rfl
  | succ k ih => simp [beBytes, ih]

theorem beVal_beBytes (w n : ℕ) (h : n < 256 ^ w) : beVal (beBytes w n) = n := by
  induction w generalizing n with
  | zero =>
    have : n = 0 := by simpa using h
    simp [this, beBytes, beVal]
  | succ k ih =>
    have hdiv : n / 256 < 256 ^ k := by
      rw [Nat.div_lt_iff_lt_mul (by norm_num : 0 < 256)]
      calc n < 256 ^ (k + 1) := h
        _ = 256 ^ k * 256 := by ring
    rw [beBytes]
    have happ : beVal (beBytes k (n / 256) ++ [n % 256]) =
        beVal (beBytes k (n / 256)) * 256 + n % 256 := by
      simp [beVal, List.foldl_append]
    rw [happ, ih (n / 256) hdiv]
    omega

theorem encodeTriples_length (ps : List PlayerWire) :
    (encodeTriples ps).length = 24 * ps.length := by
  induction ps with
  | nil => rfl
  | cons p ps ih => simp [encodeTriples, beBytes_length, ih]; ring

theorem encodeSamples_length (ps : List PlayerWire) :
    (encodeSamples ps).length = 8 * ps.length := by
  induction ps with
  | nil => rfl
  | cons p ps ih => simp [encodeSamples, beBytes_length, ih]; ring

theorem readBytes_at (buf : List ℕ) (k n : ℕ) (pre bs post : List ℕ)
    (hbuf : buf = pre ++ bs ++ post) (hk : k = pre.length) (hn : n = bs.length) :
    readBytes ⟨buf, k⟩ n = some (bs, ⟨buf, k + n⟩) := by
  subst hbuf hk hn
  rw [readBytes]
  have hsz : bs.length ≤ sizeLeft ⟨pre ++ bs ++ post, pre.length⟩ := by
    simp [sizeLeft]
  rw [if_pos hsz]
  have hdrop : (pre ++ bs ++ post).drop pre.length = bs ++ post := by
    rw [List.append_assoc, List.drop_left]
  have htake : (bs ++ post).take bs.length = bs := List.take_left bs post
  simp only [hdrop, htake]

theorem readFloat64_at (buf : List ℕ) (k : ℕ) (pre post : List ℕ) (v : ℕ)
    (hbuf : buf = pre ++ beBytes 8 v ++ post) (hk : k = pre.length)
    (hv : v < 256 ^ 8) :
    readFloat64 ⟨buf, k⟩ = some (v, ⟨buf, k + 8⟩) := by
  rw [readFloat64,
    readBytes_at buf k 8 pre (beBytes 8 v) post hbuf hk (beBytes_length 8 v).symm]
  simp [beVal_beBytes 8 v hv]

theorem readUInt32_at (buf : List ℕ) (k : ℕ) (pre post : List ℕ) (v : ℕ)
    (hbuf : buf = pre ++ beBytes 4 v ++ post) (hk : k = pre.length)
    (hv : v < 256 ^ 4) :
    readUInt32 ⟨buf, k⟩ = some (v, ⟨buf, k + 4⟩) := by
  rw [readUInt32,
    readBytes_at buf k 4 pre (beBytes 4 v) post hbuf hk (beBytes_length 4 v).symm]
  simp [beVal_beBytes 4 v hv]

theorem readUInt64_at (buf : List ℕ) (k : ℕ) (pre post : List ℕ) (v : ℕ)
    (hbuf : buf = pre ++ beBytes 8 v ++ post) (hk : k = pre.length)
    (hv : v < 256 ^ 8) :
    readUInt64 ⟨buf, k⟩ = some (v, ⟨buf, k + 8⟩) := by
  rw [readUInt64,
    readBytes_at buf k 8 pre (beBytes 8 v) post hbuf hk (beBytes_length 8 v).symm]
  simp [beVal_beBytes 8 v hv]

theorem readPlayerTriples_encode (ps : List PlayerWire) (buf : List ℕ) (k : ℕ)
    (pre post : List ℕ)
    (hbuf : buf = pre ++ encodeTriples ps ++ post) (hk : k = pre.length)
    (hw : ∀ p ∈ ps, p.beat < 256 ^ 8 ∧ p.totalBeats < 256 ^ 8 ∧ p.BPM < 256 ^ 8) :
    readPlayerTriples ⟨buf, k⟩ ps.length =
      some (ps.map fun p => ⟨p.beat, p.totalBeats, p.BPM, none⟩,
        ⟨buf, k + 24 * ps.length⟩) := by
  induction ps generalizing pre k with
  | nil =>
    rw [List.length_nil, readPlayerTriples]
    simp
  | cons p ps ih =>
    obtain ⟨hbeat, htb, hbpm⟩ := hw p (List.mem_cons_self p ps)
    have hw' : ∀ q ∈ ps, q.beat < 256 ^ 8 ∧ q.totalBeats < 256 ^ 8 ∧ q.BPM < 256 ^ 8 :=
      fun q hq => hw q (List.mem_cons_of_mem p hq)
    have h1 : readFloat64 ⟨buf, k⟩ = some (p.beat, ⟨buf, k + 8⟩) := by
      refine readFloat64_at buf k pre
        (beBytes 8 p.totalBeats ++ beBytes 8 p.BPM ++ encodeTriples ps ++ post)
        p.beat ?_ hk hbeat
      rw [hbuf]; simp [encodeTriples]
    have h2 : readFloat64 ⟨buf, k + 8⟩ = some (p.totalBeats, ⟨buf, k + 8 + 8⟩) := by
      refine readFloat64_at buf (k + 8) (pre ++ beBytes 8 p.beat)
        (beBytes 8 p.BPM ++ encodeTriples ps ++ post) p.totalBeats ?_ ?_ htb
      · rw [hbuf]; simp [encodeTriples]
      · simp [beBytes_length, hk]
    have h3 : readFloat64 ⟨buf, k + 8 + 8⟩ = some (p.BPM, ⟨buf, k + 8 + 8 + 8⟩) := by
      refine readFloat64_at buf (k + 8 + 8)
        (pre ++ beBytes 8 p.beat ++ beBytes 8 p.totalBeats)
        (encodeTriples ps ++ post) p.BPM ?_ ?_ hbpm
      · rw [hbuf]; simp [encodeTriples]
      · simp [beBytes_length, hk]
    have h4 : readPlayerTriples ⟨buf, k + 8 + 8 + 8⟩ ps.length =
        some (ps.map fun q => ⟨q.beat, q.totalBeats, q.BPM, none⟩,
          ⟨buf, k + 8 + 8 + 8 + 24 * ps.length⟩) := by
      refine ih (k + 8 + 8 + 8)
        (pre ++ beBytes 8 p.beat ++ beBytes 8 p.totalBeats ++ beBytes 8 p.BPM)
        ?_ ?_ hw'
      · rw [hbuf]; simp [encodeTriples]
      · simp [beBytes_length, hk]
    rw [List.length_cons, readPlayerTriples]
    rw [h1]
    simp only [Option.bind_eq_bind, Option.some_bind]
    rw [h2]
    simp only [Option.some_bind]
    rw [h3]
    simp only [Option.some_bind]
    rw [h4]
    simp only [Option.some_bind, List.map_cons]
    have harith : k + 8 + 8 + 8 + 24 * ps.length = k + 24 * (ps.length + 1) := by ring
    rw [harith]

theorem readSamples_encode (ps : List PlayerWire) (buf : List ℕ) (k : ℕ)
    (pre post : List ℕ)
    (hbuf : buf = pre ++ encodeSamples ps ++ post) (hk : k = pre.length)
    (hw : ∀ p ∈ ps, p.samples < 256 ^ 8) :
    readSamples ⟨buf, k⟩ (ps.map fun p => ⟨p.beat, p.totalBeats, p.BPM, none⟩) =
      some (ps.map fun p => ⟨p.beat, p.totalBeats, p.BPM, some p.samples⟩,
        ⟨buf, k + 8 * ps.length⟩) := by
  induction ps generalizing pre k with
  | nil =>
    rw [List.map_nil, readSamples]
    simp
  | cons p ps ih =>
    have hs := hw p (List.mem_cons_self p ps)
    have hw' : ∀ q ∈ ps, q.samples < 256 ^ 8 :=
      fun q hq => hw q (List.mem_cons_of_mem p hq)
    have h1 : readFloat64 ⟨buf, k⟩ = some (p.samples, ⟨buf, k + 8⟩) := by
      refine readFloat64_at buf k pre (encodeSamples ps ++ post) p.samples ?_ hk hs
      rw [hbuf]; simp [encodeSamples]
    have h2 : readSamples ⟨buf, k + 8⟩
        (ps.map fun q => ⟨q.beat, q.totalBeats, q.BPM, none⟩) =
        some (ps.map fun q => ⟨q.beat, q.totalBeats, q.BPM, some q.samples⟩,
          ⟨buf, k + 8 + 8 * ps.length⟩) := by
      refine ih (k + 8) (pre ++ beBytes 8 p.samples) ?_ ?_ hw'
      · rw [hbuf]; simp [encodeSamples]
      · simp [beBytes_length, hk]
    rw [List.map_cons, readSamples]
    rw [h1]
    simp only [Option.bind_eq_bind, Option.some_bind]
    rw [h2]
    simp only [Option.some_bind, List.map_cons, List.length_cons]
    have harith : k + 8 + 8 * ps.length = k + 8 * (ps.length + 1) := by ring
    rw [harith]

theorem parseData_encode_core (id clock : ℕ) (ps : List PlayerWire) (post : List ℕ)
    (hid : id < 256 ^ 4) (hclock : clock < 256 ^ 8) (hcount : ps.length < 256 ^ 4)
    (hn : 2 ≤ ps.length)
    (hw : ∀ p ∈ ps, p.beat < 256 ^ 8 ∧ p.totalBeats < 256 ^ 8 ∧ p.BPM < 256 ^ 8
      ∧ p.samples < 256 ^ 8) :
    parseData ⟨encodeBeatFrame id clock ps ++ post, 0⟩ =
      if post.isEmpty then
        some ⟨id, ⟨clock, ps.length,
          ps.map fun p => ⟨p.beat, p.totalBeats, p.BPM, some p.samples⟩⟩⟩
      else none := by
  have hlen : (encodeBeatFrame id clock ps).length = 16 + 32 * ps.length := by
    simp [encodeBeatFrame, beBytes_length, encodeTriples_length, encodeSamples_length]
    ring
  have hguard : ¬ sizeLeft ⟨encodeBeatFrame id clock ps ++ post, 0⟩ ≤ 72 := by
    simp [sizeLeft, hlen]
    omega
  have h1 : readUInt32 ⟨encodeBeatFrame id clock ps ++ post, 0⟩ =
      some (id, ⟨encodeBeatFrame id clock ps ++ post, 0 + 4⟩) := by
    refine readUInt32_at _ 0 []
      (beBytes 8 clock ++ beBytes 4 ps.length ++ encodeTriples ps
        ++ encodeSamples ps ++ post) id ?_ rfl hid
    simp [encodeBeatFrame]
  have h2 : readUInt64 ⟨encodeBeatFrame id clock ps ++ post, 0 + 4⟩ =
      some (clock, ⟨encodeBeatFrame id clock ps ++ post, 0 + 4 + 8⟩) := by
    refine readUInt64_at _ (0 + 4) (beBytes 4 id)
      (beBytes 4 ps.length ++ encodeTriples ps ++ encodeSamples ps ++ post)
      clock ?_ ?_ hclock
    · simp [encodeBeatFrame]
    · simp [beBytes_length]
  have h3 : readUInt32 ⟨encodeBeatFrame id clock ps ++ post, 0 + 4 + 8⟩ =
      some (ps.length, ⟨encodeBeatFrame id clock ps ++ post, 0 + 4 + 8 + 4⟩) := by
    refine readUInt32_at _ (0 + 4 + 8) (beBytes 4 id ++ beBytes 8 clock)
      (encodeTriples ps ++ encodeSamples ps ++ post) ps.length ?_ ?_ hcount
    · simp [encodeBeatFrame]
    · simp [beBytes_length]
  have h4 : readPlayerTriples ⟨encodeBeatFrame id clock ps ++ post, 0 + 4 + 8 + 4⟩
      ps.length =
      some (ps.map fun p => ⟨p.beat, p.totalBeats, p.BPM, none⟩,
        ⟨encodeBeatFrame id clock ps ++ post, 0 + 4 + 8 + 4 + 24 * ps.length⟩) := by
    refine readPlayerTriples_encode ps _ _
      (beBytes 4 id ++ beBytes 8 clock ++ beBytes 4 ps.length)
      (encodeSamples ps ++ post) ?_ ?_ (fun p hp => ⟨(hw p hp).1, (hw p hp).2.1, (hw p hp).2.2.1⟩)
    · simp [encodeBeatFrame]
    · simp [beBytes_length]
  have h5 : readSamples
      ⟨encodeBeatFrame id clock ps ++ post, 0 + 4 + 8 + 4 + 24 * ps.length⟩
      (ps.map fun p => ⟨p.beat, p.totalBeats, p.BPM, none⟩) =
      some (ps.map fun p => ⟨p.beat, p.totalBeats, p.BPM, some p.samples⟩,
        ⟨encodeBeatFrame id clock ps ++ post,
          0 + 4 + 8 + 4 + 24 * ps.length + 8 * ps.length⟩) := by
    refine readSamples_encode ps _ _
      (beBytes 4 id ++ beBytes 8 clock ++ beBytes 4 ps.length ++ encodeTriples ps)
      post ?_ ?_ (fun p hp => (hw p hp).2.2.2)
    · simp [encodeBeatFrame]
    · simp [beBytes_length, encodeTriples_length]
      omega
  have heof : isEOF ⟨encodeBeatFrame id clock ps ++ post,
      0 + 4 + 8 + 4 + 24 * ps.length + 8 * ps.length⟩ = post.isEmpty := by
    rw [isEOF]
    rcases post with _ | ⟨b, rest⟩
    · simp [sizeLeft, hlen]
      omega
    · simp [sizeLeft, hlen]
      omega
  rw [parseData, if_neg hguard]
  rw [h1]
  simp only [Option.bind_eq_bind, Option.some_bind]
  rw [h2]
  simp only [Option.some_bind]
  rw [h3]
  simp only [Option.some_bind]
  rw [h4]
  simp only [Option.some_bind]
  rw [h5]
  simp only [Option.some_bind]
  rw [heof]

/-- C2: round-trip exactness of the beat-info wire layout.  Any buffer
laid out as `uint32 id | uint64 clock | uint32 playerCount | playerCount
× (f64 beat, f64 totalBeats, f64 BPM) | playerCount × f64 samples` (all
big-endian, at least 73 bytes, i.e. at least two players) decodes to a
`ServiceMessage` carrying exactly those values in the two-pass order and
consumes the cursor fully; a cursor with 72 or fewer bytes remaining, or
a frame the layout does not consume exactly (trailing bytes), is
rejected as an error rather than decoded. -/
theorem parseData_roundtrip (id clock : ℕ) (ps : List PlayerWire)
    (hid : id < 2 ^ 32) (hclock : clock < 2 ^ 64) (hcount : ps.length < 2 ^ 32)
    (hn : 2 ≤ ps.length)
    (hw : ∀ p ∈ ps, p.beat < 2 ^ 64 ∧ p.totalBeats < 2 ^ 64 ∧ p.BPM < 2 ^ 64
      ∧ p.samples < 2 ^ 64) :
    (parseData ⟨encodeBeatFrame id clock ps, 0⟩ =
      some ⟨id, ⟨clock, ps.length,
        ps.map fun p => ⟨p.beat, p.totalBeats, p.BPM, some p.samples⟩⟩⟩) ∧
    (∀ extra : List ℕ, extra ≠ [] →
      parseData ⟨encodeBeatFrame id clock ps ++ extra, 0⟩ = none) ∧
    (∀ c : ReadContext, sizeLeft c ≤ 72 → parseData c = none) := by
  have hpow4 : (2:ℕ) ^ 32 = 256 ^ 4 := by norm_num
  have hpow8 : (2:ℕ) ^ 64 = 256 ^ 8 := by norm_num
  have hw' : ∀ p ∈ ps, p.beat < 256 ^ 8 ∧ p.totalBeats < 256 ^ 8 ∧ p.BPM < 256 ^ 8
      ∧ p.samples < 256 ^ 8 := by
    intro p hp
    obtain ⟨h1, h2, h3, h4⟩ := hw p hp
    rw [hpow8] at h1 h2 h3 h4
    exact ⟨h1, h2, h3, h4⟩
  refine ⟨?_, ?_, ?_⟩
  · have hcore := parseData_encode_core id clock ps [] (hpow4 ▸ hid) (hpow8 ▸ hclock)
      (hpow4 ▸ hcount) hn hw'
    simpa using hcore
  · intro extra hx
    have hcore := parseData_encode_core id clock ps extra (hpow4 ▸ hid) (hpow8 ▸ hclock)
      (hpow4 ▸ hcount) hn hw'
    rw [hcore, if_neg]
    simp [hx]
  · intro c hc
    rw [parseData, if_pos hc]

/-- Witness for C2: a concrete two-player frame decodes to exactly its
constituent values. -/
theorem parseData_roundtrip_witness :
    parseData ⟨encodeBeatFrame 7 9 [⟨1, 2, 3, 4⟩, ⟨5, 6, 7, 8⟩], 0⟩ =
      some ⟨7, ⟨9, 2, [⟨1, 2, 3, some 4⟩, ⟨5, 6, 7, some 8⟩]⟩⟩ :=
  (parseData_roundtrip 7 9 [⟨1, 2, 3, 4⟩, ⟨5, 6, 7, 8⟩] (by norm_num) (by norm_num)
    (by norm_num) (by norm_num) (by decide)).1

/-! ## Device / Devices registry -/

/-- One lowercase hex digit. -/
def hexChar (d : ℕ) : Char :=
  if d < 10 then Char.ofNat (48 + d) else Char.ofNat (87 + d)

/-- `Buffer.toString('hex')`: two lowercase hex digits per byte. -/
def hexChars : List ℕ → List Char
  | [] => []
  | b :: bs => hexChar (b / 16) :: hexChar (b % 16) :: hexChars bs

/-- The identity-normalising regex
`(\w{8})(\w{4})(\w{4})(\w{4})(\w{12})` (case-insensitive) applied as
`.exec(hex).splice(1).join('-')`: the five groups of the first match
joined with dashes.  On a hex string every character is a word
character, so a string of at least 32 characters matches at offset 0; on
a shorter string `exec` returns `null` and the JavaScript code throws
(`none`). -/
def tokenToString (cs : List Char) : Option String :=
  if cs.length < 32 then none
  else some (String.mk (cs.take 8 ++ ['-'] ++ (cs.drop 8).take 4 ++ ['-']
    ++ (cs.drop 12).take 4 ++ ['-'] ++ (cs.drop 16).take 4 ++ ['-']
    ++ (cs.drop 20).take 12))

/-- Modelled from the spec: the `DeviceId` class is not among the
excerpted sources; per the spec it derives identity from a 16-byte token
"by formatting it as a canonical UUID-style dashed hex string", i.e. the
lowercase hex digits grouped 8-4-4-4-12 and joined with dashes. -/
structure DeviceId where
  token : List ℕ
  deriving DecidableEq

def DeviceId.string (d : DeviceId) : String :=
  String.mk ((hexChars d.token).take 8 ++ ['-'] ++ ((hexChars d.token).drop 8).take 4
    ++ ['-'] ++ ((hexChars d.token).drop 12).take 4 ++ ['-']
    ++ ((hexChars d.token).drop 16).take 4 ++ ['-']
    ++ ((hexChars d.token).drop 20).take 12)

/-- A registry `Device`: the derived identity plus the announcement it
was constructed from (services map omitted; no verified operation reads
it). -/
structure Device where
  deviceId : DeviceId
  info : ConnectionInfo
  deriving DecidableEq

/-- `Devices.addDevice`: construct the `Device` (identity derived from
the announcement's token), insert it keyed by the canonical identity
string, and return it. -/
def addDevice (reg : List (String × Device)) (info : ConnectionInfo) :
    List (String × Device) × Device :=
  let device : Device := ⟨⟨info.token⟩, info⟩
  (setKey (DeviceId.string ⟨info.token⟩) device reg, device)

/-- The three identity forms accepted by `getDevice` / `device` /
`hasDevice`: the canonical string, a `DeviceId`, or a raw token
(`Uint8Array`). -/
inductive DeviceIdInput
  | str (s : String)
  | devId (d : DeviceId)
  | raw (token : List ℕ)

/-- The identity normalisation the three lookup entry points share: a
string is used as-is, a `DeviceId` contributes its string form, a raw
token is hex-formatted and regex-split (`none` models the throw on a
token too short to match). -/
def keyString : DeviceIdInput → Option String
  | .str s => some s
  | .devId d => some d.string
  | .raw token => tokenToString (hexChars token)

/-- `Devices.hasDevice`. -/
def hasDevice (reg : List (String × Device)) (k : DeviceIdInput) : Bool :=
  match keyString k with
  | some s => (lookupKey s reg).isSome
  | none => false

/-- `Devices.getDevice`: the `while (!hasDevice) await sleep(150)` poll
loop, over the trace of registry states seen at successive polls
(`trace t` is the registry at the t-th poll), with a fuel bound on the
number of polls; `none` means the fuel ran out with the device still
absent (the call is still suspended). -/
def getDevicePoll (trace : ℕ → List (String × Device)) (k : DeviceIdInput) (t : ℕ) :
    ℕ → Option Device
  | 0 => none
  | fuel + 1 =>
    if hasDevice (trace t) k then
      match keyString k with
      | some s => lookupKey s (trace t)
      | none => none
    else getDevicePoll trace k (t + 1) fuel

theorem hexChars_length (bs : List ℕ) : (hexChars bs).length = 2 * bs.length := by
  induction bs with
  | nil => rfl
  | cons b bs ih => simp [hexChars, ih]; ring

theorem tokenToString_of_sixteen (token : List ℕ) (h : token.length = 16) :
    tokenToString (hexChars token) = some (DeviceId.string ⟨token⟩) := by
  rw [tokenToString, if_neg (by rw [hexChars_length, h]; omega)]
  rfl

/-- C7: the registry's waiting lookup.  All three identity forms
(canonical string, `DeviceId`, raw 16-byte token) normalise to the same
canonical dashed-hex key — the key under which `addDevice` inserts the
device it constructs — and a `getDevicePoll` call started before the
insertion stays suspended while the device is absent and returns that
exact device, in one call, once polling reaches a state containing it. -/
theorem getDevice_resolves
    (trace : ℕ → List (String × Device)) (info : ConnectionInfo) (d : Device)
    (t₀ : ℕ)
    (htoken : info.token.length = 16)
    (_hd : d = ⟨⟨info.token⟩, info⟩)
    (habsent : ∀ n, n < t₀ →
      lookupKey (DeviceId.string ⟨info.token⟩) (trace n) = none)
    (hpresent : ∀ n, t₀ ≤ n →
      lookupKey (DeviceId.string ⟨info.token⟩) (trace n) = some d) :
    (keyString (.str (DeviceId.string ⟨info.token⟩)) =
        some (DeviceId.string ⟨info.token⟩) ∧
      keyString (.devId ⟨info.token⟩) = some (DeviceId.string ⟨info.token⟩) ∧
      keyString (.raw info.token) = some (DeviceId.string ⟨info.token⟩)) ∧
    (∀ reg, lookupKey (DeviceId.string ⟨info.token⟩) (addDevice reg info).1 =
      some (addDevice reg info).2) ∧
    (∀ k : DeviceIdInput, keyString k = some (DeviceId.string ⟨info.token⟩) →
      (∀ fuel, fuel ≤ t₀ → getDevicePoll trace k 0 fuel = none) ∧
      (∀ fuel, t₀ < fuel → getDevicePoll trace k 0 fuel = some d)) := by
  have hkeys : keyString (.raw info.token) = some (DeviceId.string ⟨info.token⟩) :=
    tokenToString_of_sixteen info.token htoken
  refine ⟨⟨rfl, rfl, hkeys⟩, ?_, ?_⟩
  · intro reg
    rw [addDevice]
    simp only
    rw [lookupKey_setKey, if_pos rfl]
  · intro k hk
    constructor
    · have hgen : ∀ fuel t, t + fuel ≤ t₀ → getDevicePoll trace k t fuel = none := by
        intro fuel
        induction fuel with
        | zero => intro t _; rfl
        | succ f ihf =>
          intro t ht
          rw [getDevicePoll]
          have habs : lookupKey (DeviceId.string ⟨info.token⟩) (trace t) = none :=
            habsent t (by omega)
          rw [if_neg (by simp [hasDevice, hk, habs])]
          exact ihf (t + 1) (by omega)
      intro fuel hfuel
      exact hgen fuel 0 (by omega)
    · have hgen : ∀ fuel t, t ≤ t₀ → t₀ < t + fuel →
          getDevicePoll trace k t fuel = some d := by
        intro fuel
        induction fuel with
        | zero => intro t ht1 ht2; omega
        | succ f ihf =>
          intro t ht1 ht2
          rw [getDevicePoll]
          by_cases hteq : t = t₀
          · subst hteq
            have hpres := hpresent t (le_refl t)
            rw [if_pos (by simp [hasDevice, hk, hpres])]
            rw [hk]
            exact hpres
          · have habs : lookupKey (DeviceId.string ⟨info.token⟩) (trace t) = none :=
              habsent t (by omega)
            rw [if_neg (by simp [hasDevice, hk, habs])]
            exact ihf (t + 1) (by omega) (by omega)
      intro fuel hfuel
      exact hgen fuel 0 (by omega) (by omega)

/-- Witness for C7: a device inserted at poll step 1 is returned by a
raw-token lookup started at step 0, with two polls of fuel. -/
theorem getDevice_resolves_witness :
    getDevicePoll
      (fun n => if n = 0 then [] else
        [(DeviceId.string ⟨List.range 16⟩,
          ⟨⟨List.range 16⟩, ⟨"192.168.1.40", 51000, "player", ⟨"SC5000", "1"⟩,
            List.range 16⟩⟩)])
      (.raw (List.range 16)) 0 2 =
      some ⟨⟨List.range 16⟩, ⟨"192.168.1.40", 51000, "player", ⟨"SC5000", "1"⟩,
        List.range 16⟩⟩ := by
  have h := getDevice_resolves
    (fun n => if n = 0 then [] else
      [(DeviceId.string ⟨List.range 16⟩,
        ⟨⟨List.range 16⟩, ⟨"192.168.1.40", 51000, "player", ⟨"SC5000", "1"⟩,
          List.range 16⟩⟩)])
    ⟨"192.168.1.40", 51000, "player", ⟨"SC5000", "1"⟩, List.range 16⟩
    ⟨⟨List.range 16⟩, ⟨"192.168.1.40", 51000, "player", ⟨"SC5000", "1"⟩,
      List.range 16⟩⟩
    1 (by decide) rfl
    (by
      intro n hn
      have hn0 : n = 0 := by omega
      subst hn0
      rfl)
    (by
      intro n hn
      have hn0 : ¬ n = 0 := by omega
      simp only [if_neg hn0, lookupKey, if_pos rfl]
      simp)
  exact (h.2.2 (.raw (List.range 16)) (h.1.2.2)).2 2 (by omega)

end StageLinq
